import Mathlib

/-!
# Verification of the chat-with-pdf backend against its specification

Shallow embedding of the repository's core logic:

* `core/chunker/text_chunker.py` — the sliding-window text chunker;
* `services/file_service/ingestion_service.py` — S3-key parsing, text
  sanitisation, and the ingestion pipeline;
* `api/routes/webhook_router.py` — the background ingestion runner;
* `services/chat_service/chat_handler.py` — the retrieval-mode orchestrator
  (`process_chat` and the two history builders).

Strings are embedded as `List Char`; Python integer arithmetic as `Nat`
(all quantities involved are non-negative); fallible calls as `Except`;
external collaborators (S3, OpenAI, Upstash, `fitz`) as records of oracle
functions supplied per run.
-/

namespace ChatPdf

/-! ## Python string primitives used by the source -/

/-- The whitespace characters removed by Python's `str.strip()`
(ASCII whitespace: space, tab, newline, carriage return, vertical tab,
form feed). -/
def pyIsSpace (c : Char) : Bool :=
  c = ' ' || c = '\t' || c = '\n' || c = '\r' ||
  c = Char.ofNat 11 || c = Char.ofNat 12

/-- Python `text.strip()`: remove leading and trailing whitespace. -/
def pyStrip (l : List Char) : List Char :=
  ((l.dropWhile pyIsSpace).reverse.dropWhile pyIsSpace).reverse

/-- Python slice `text[start:e]`. -/
def pySlice (text : List Char) (start e : Nat) : List Char :=
  (text.drop start).take (e - start)

/-! ## Chunker (`core/chunker/text_chunker.py`, `chunk_text`) -/

/-- The word/sentence boundary characters of `text_chunker.py` line 59:
`[' ', '\n', '.', '!', '?', '\t']`. -/
def isBoundaryChar (c : Char) : Bool :=
  c = ' ' || c = '\n' || c = '.' || c = '!' || c = '?' || c = '\t'

/-- The backward boundary scan
`for i in range(end, max(start, end - search_limit), -1)` of
`text_chunker.py` lines 58–61: starting at index `i` and making `k`
attempts (one per loop iteration, decrementing `i`), return the first
index holding a boundary character; `none` if the range is exhausted.
The guard `i < text_length` of line 59 is kept verbatim. -/
def scanBack (text : List Char) : Nat → Nat → Option Nat
  | _, 0 => none
  | i, k + 1 =>
    if i < text.length && isBoundaryChar (text.getD i 'x') then some i
    else scanBack text (i - 1) k

/-- The adjusted window end of `text_chunker.py` lines 47–64: the nominal
end is `start + chunk_size_chars`; if it falls before the end of the text,
scan backward over the last `searchLimit` positions (never crossing
`start`) for a boundary character and cut just after it. -/
def windowEnd (text : List Char) (csc searchLimit start : Nat) : Nat :=
  let e := start + csc
  if e < text.length then
    match scanBack text e (e - max start (e - searchLimit)) with
    | some i => i + 1
    | none => e
  else e

/-- The sliding-window loop of `text_chunker.py` lines 46–81, with an
explicit fuel argument bounding the number of iterations.  Each iteration:
compute the (boundary-adjusted) window end, strip the extracted slice,
keep it if non-empty, stop if the window reached the end of the text,
otherwise restart at `max (start + 1) (end - overlap_chars)`. -/
def chunkLoop (text : List Char) (csc oc searchLimit : Nat) :
    Nat → Nat → List (List Char)
  | _, 0 => []
  | start, fuel + 1 =>
    if start < text.length then
      let e := windowEnd text csc searchLimit start
      let chunk := pyStrip (pySlice text start e)
      let rest :=
        if text.length ≤ e then []
        else chunkLoop text csc oc searchLimit (max (start + 1) (e - oc)) fuel
      if chunk = [] then rest else chunk :: rest
    else []

/-- `chunk_text` with an explicit iteration budget for the sliding-window
loop.  `search_limit = int(chunk_size_chars * 0.2)` is modelled as
`chunk_size_chars * 2 / 10` (floor); the loop lemmas below are proved for
an arbitrary search limit, so this modelling choice does not affect any
claim. -/
def chunk_text_fuel (text : List Char) (chunk_size overlap fuel : Nat) :
    List (List Char) :=
  if text.isEmpty || (pyStrip text).isEmpty then []
  else
    let chunk_size_chars := chunk_size * 4
    let overlap_chars := overlap * 4
    if text.length ≤ chunk_size_chars then [pyStrip text]
    else
      chunkLoop text chunk_size_chars overlap_chars
        (chunk_size_chars * 2 / 10) 0 fuel

/-- `chunk_text(text, chunk_size=512, overlap=102)` of
`core/chunker/text_chunker.py`.  The fuel `text.length` is sufficient: the
loop start strictly advances each iteration (see
`chunkLoop_fuel_irrelevant`). -/
def chunk_text (text : List Char) (chunk_size : Nat := 512)
    (overlap : Nat := 102) : List (List Char) :=
  chunk_text_fuel text chunk_size overlap text.length

/-! ## S3-key parsing and file creation
(`services/file_service/ingestion_service.py`) -/

def isLowerHexDigit (c : Char) : Bool :=
  ('0' ≤ c && c ≤ '9') || ('a' ≤ c && c ≤ 'f')

/-- The capture group of the regex at `ingestion_service.py` line 32:
`[a-f0-9]{8}-[a-f0-9]{4}-[a-f0-9]{4}-[a-f0-9]{4}-[a-f0-9]{12}` — 36
characters with hyphens at offsets 8, 13, 18 and 23 and lowercase
hexadecimal digits everywhere else. -/
def isUuidChars (l : List Char) : Bool :=
  (l.length == 36) &&
  (List.range 36).all (fun i =>
    if i == 8 || i == 13 || i == 18 || i == 23 then l.getD i 'x' == '-'
    else isLowerHexDigit (l.getD i 'x'))

def uploadsHead : List Char := "uploads/".toList

def pdfSuffix : List Char := ".pdf".toList

/-- The body of the pattern `^uploads/(<uuid>)\.pdf` matched against a
whole candidate string (total length `8 + 36 + 4`): return the captured
UUID when the candidate is exactly prefix, UUID and extension. -/
def uploadKeyMatch (body : List Char) : Option (List Char) :=
  if body.length = 48 ∧ body.take 8 = uploadsHead ∧ body.drop 44 = pdfSuffix ∧
      isUuidChars ((body.drop 8).take 36) = true then
    some ((body.drop 8).take 36)
  else none

/-- `IngestionService.extract_file_id_from_s3_key`: `re.match` of the
anchored pattern `^uploads/(<uuid>)\.pdf$` returning the captured UUID,
else `None`.  Python's `$` (without `re.MULTILINE`) matches at the end
of the string *or just before a newline at the end of the string*, so
the pattern body is matched against the key with one trailing newline,
if present, stripped. -/
def extract_file_id_from_s3_key (key : List Char) : Option (List Char) :=
  uploadKeyMatch (if key.getLast? = some '\n' then key.dropLast else key)

/-- Document ingestion lifecycle states (`dao/models/file.py`). -/
inductive IngestionStatus
  | uploaded
  | completed
  | failed
deriving DecidableEq

/-- A row of the `files` table (`dao/models/file.py`): id (the UUID
string captured from the S3 key), storage key, ingestion status. -/
structure FileRec where
  id : List Char
  s3_key : List Char
  ingestion_status : IngestionStatus
deriving DecidableEq

/-- `IngestionService.create_file_from_s3_event` over the `files` table:
reject keys that do not match the upload pattern; return an existing row
with the same `s3_key` unchanged; otherwise insert a new row with status
`uploaded` (the `uuid.UUID` round-trip on the captured id is modelled as
the identity, which it is on a string the regex accepted).  Returns the
resulting row (`none` on rejection, in which case the webhook handler
answers 400 without creating a Document row) and the updated table. -/
def create_file_from_s3_event (files : List FileRec) (s3_key : List Char) :
    Option FileRec × List FileRec :=
  match extract_file_id_from_s3_key s3_key with
  | none => (none, files)
  | some fid =>
    match files.find? (fun f => f.s3_key == s3_key) with
    | some existing => (some existing, files)
    | none => (some ⟨fid, s3_key, .uploaded⟩, files ++ [⟨fid, s3_key, .uploaded⟩])

/-! ## Ingestion pipeline
(`IngestionService.process_file_ingestion` and the background runner) -/

/-- `IngestionService._sanitize_text`: drop null bytes, keep printable
characters and common whitespace, then round-trip through a lossy UTF-8
encode/decode (the identity on the unicode scalar values a Lean `Char`
carries).  Python's `str.isprintable` is stdlib capability, supplied as
the oracle `printable`. -/
def sanitize_text (printable : Char → Bool) (text : List Char) : List Char :=
  (text.filter (fun c => !(c == Char.ofNat 0))).filter
    (fun c => printable c || ['\n', '\t', '\r', ' '].contains c)

/-- The exceptions distinguished by the ingestion pipeline: the three
`ValueError`s it raises itself, plus opaque failures of the external
steps (download, extraction, embedding, upsert). -/
inductive PipeErr
  | fileNotFound
  | emptyText
  | noChunks
  | stepFailure (step : List Char)
deriving DecidableEq

/-- A vector-index metadata row (`ingestion_service.py` lines 103–110). -/
structure ChunkMeta where
  file_id : List Char
  chunk_index : Nat
  chunk_text : List Char
deriving DecidableEq

/-- External collaborators of the ingestion pipeline, as oracles: the
file-row lookup, S3 download, PDF text extraction, the embedding
backend, the vector-index upsert, and `str.isprintable`.  Vectors and
PDF byte strings are opaque handles (`Nat`). -/
structure PipelineEnv where
  file? : Option FileRec
  download : List Char → Except PipeErr Nat
  extract_text : Nat → Except PipeErr (List Char)
  printable : Char → Bool
  embed : List (List Char) → Except PipeErr (List Nat)
  upsert : List (List Char) → List Nat → List ChunkMeta → Except PipeErr Unit

/-- Vector ids `f"{file_id}-chunk-{i}"` (`ingestion_service.py` line 102). -/
def vector_ids (file_id : List Char) (n : Nat) : List (List Char) :=
  (List.range n).map (fun i => file_id ++ "-chunk-".toList ++ (toString i).toList)

/-- Metadata rows: file id, chunk index, chunk text truncated to 200
characters and sanitised again. -/
def metadata_list (printable : Char → Bool) (file_id : List Char)
    (chunks : List (List Char)) : List ChunkMeta :=
  chunks.enum.map (fun p => ⟨file_id, p.1, sanitize_text printable (p.2.take 200)⟩)

/-- The body of the `try` block of `IngestionService.process_file_ingestion`
(lines 72–122): look up the file row, download, extract and sanitise,
reject empty text, chunk with `chunk_text(text, 512, 102)`, reject an
empty chunk list, embed, upsert. -/
def pipeline_steps (env : PipelineEnv) (file_id : List Char) :
    Except PipeErr Unit := do
  match env.file? with
  | none => throw .fileNotFound
  | some file => do
    let pdf_bytes ← env.download file.s3_key
    let raw_text ← env.extract_text pdf_bytes
    let text := sanitize_text env.printable raw_text
    if (pyStrip text).isEmpty then throw .emptyText
    let chunks := chunk_text text 512 102
    if chunks.isEmpty then throw .noChunks
    let embeddings ← env.embed chunks
    env.upsert (vector_ids file_id chunks.length) embeddings
      (metadata_list env.printable file_id chunks)

/-- `process_file_ingestion` with its boundary handler (lines 124–131):
on success the status write is `completed`; on any exception the status
is written `failed` when the row exists (the inner `update_status` finds
no row otherwise, and its own failure is swallowed) and the triggering
exception is re-raised.  Returns the propagated outcome together with
the status written. -/
def process_file_ingestion (env : PipelineEnv) (file_id : List Char) :
    Except PipeErr Unit × Option IngestionStatus :=
  match pipeline_steps env file_id with
  | .ok _ => (.ok (), some .completed)
  | .error e => (.error e, if env.file?.isSome then some .failed else none)

/-- `_process_ingestion_background` (`api/routes/webhook_router.py` lines
79–104): run the pipeline, catch every exception and only log it — the
runner itself never raises.  Returns the status written and the logged
exception, if any. -/
def process_ingestion_background (env : PipelineEnv) (file_id : List Char) :
    Option IngestionStatus × Option PipeErr :=
  match process_file_ingestion env file_id with
  | (.ok _, st) => (st, none)
  | (.error e, st) => (st, some e)

/-! ## Chat data model
(`dao/models/message.py`, `dao/models/conversation.py`, `dao/chat_dao.py`) -/

inductive MessageRole
  | user
  | assistant
deriving DecidableEq

inductive RetrievalMode
  | inline
  | rag
deriving DecidableEq

/-- A retrieved-evidence snippet as stored in `retrieved_chunks`
(`chat_handler.py` lines 399–407): chunk text and similarity score.  The
score is opaque payload (never inspected by the handler), embedded as
`Int`. -/
structure RetrievedChunk where
  chunk_text : List Char
  similarity_score : Int
deriving DecidableEq

/-- A row of the `messages` table (`dao/models/message.py`):
`retrieval_mode` and `retrieved_chunks` are nullable columns whose model
default (a `MessageDAO.create` call without those keyword arguments) is
`NULL`. -/
structure StoredMessage where
  conversation_id : Nat
  role : MessageRole
  content : List Char
  file_id : Option (List Char)
  retrieval_mode : Option RetrievalMode
  retrieved_chunks : Option (List RetrievedChunk)
deriving DecidableEq

/-- The relational state visible to the chat handler: conversation ids,
messages in creation order (`get_by_conversation_id` orders by
`created_at` ascending, which creation order realises), and file rows. -/
structure DB where
  conversations : List Nat
  messages : List StoredMessage
  files : List FileRec
deriving DecidableEq

/-- `MessageDAO.get_by_conversation_id`. -/
def messagesOf (db : DB) (cid : Nat) : List StoredMessage :=
  db.messages.filter (fun m => m.conversation_id == cid)

/-- `FileDAO.get_by_id`. -/
def findFile (db : DB) (fid : List Char) : Option FileRec :=
  db.files.find? (fun f => f.id == fid)

/-- A fresh conversation id.  The source draws a random UUID; the model
determinises id generation (no claim depends on the generated value,
only on its identity as a conversation key). -/
def freshConversationId (db : DB) : Nat :=
  db.conversations.foldr max 0 + 1

/-- `ChatHandler.get_or_create_conversation` (lines 33–55): reuse the
conversation when the supplied id resolves; otherwise — including when
an id was supplied but does not resolve — create a new one. -/
def get_or_create_conversation (db : DB) (cid? : Option Nat) : Nat × DB :=
  match cid? with
  | some cid =>
    if cid ∈ db.conversations then (cid, db)
    else (freshConversationId db,
      { db with conversations := db.conversations ++ [freshConversationId db] })
  | none =>
    (freshConversationId db,
      { db with conversations := db.conversations ++ [freshConversationId db] })

/-! ## The completion / vector-index surface consumed by the handler -/

/-- The Python exception classes the handler distinguishes: `ValueError`
(the only class caught by the inline-mode retry, `chat_handler.py` line
473), `ImportError` (the pymupdf branch, line 112), everything else. -/
inductive PyErr
  | valueError (msg : List Char)
  | importError (msg : List Char)
  | otherError (msg : List Char)
deriving DecidableEq

/-- A tool invocation requested by the completion backend: id, type,
function name, raw JSON argument string. -/
structure ToolCall where
  id : List Char
  type : List Char
  function_name : List Char
  function_arguments : List Char
deriving DecidableEq

/-- Parsed `semantic_search` arguments: the values of `args.get("query")`
and `args.get("top_k")` (absent keys select the defaults at the call
site, lines 375–376). -/
structure ToolArgs where
  query : Option (List Char)
  top_k : Option Nat
deriving DecidableEq

/-- A raw vector-index hit (a `upstash_client.query_vectors` result row):
optional `metadata.chunk_text` and optional `score` — missing keys
default through `.get` at the use site (lines 400–405).  The score is
opaque payload, embedded as `Int`. -/
structure QueryHit where
  metadata_chunk_text : Option (List Char)
  score : Option Int
deriving DecidableEq

/-- A message as handed to the completion backend: plain text
(`create_text_message`), text plus page images
(`create_message_with_images`), the assistant tool-call echo
(`chat_handler.py` lines 424–438), or a serialized tool result (lines
412–419; the JSON envelope of chunks and count is embedded
structurally). -/
inductive OMsg
  | text (role : List Char) (content : List Char)
  | withImages (role : List Char) (content : List Char)
      (images : List (List Char))
  | assistantToolCalls (content : Option (List Char))
      (tool_calls : List ToolCall)
  | toolResult (chunks : List RetrievedChunk) (count : Nat)
      (tool_call_id : List Char)
deriving DecidableEq

/-- External collaborators of the chat handler, as oracles.
`chat_completion` is `OpenAIClient.chat_completion` (the model-fallback
ladder sits behind it); PDF byte strings and embedding vectors are
opaque handles (`Nat`); `json_loads` is Python's `json.loads` restricted
to the two keys read from the result. -/
structure ChatEnv where
  download : List Char → Except PyErr Nat
  pdf_to_images : Nat → Except PyErr (List (List Char))
  extract_text : Nat → Except PyErr (List Char)
  chat_completion : List OMsg → Except PyErr (List Char)
  /-- Modelled from the spec: the tool-enabled completion entry point.
  `ChatHandler.process_chat` calls `chat_completion_with_tools` and
  `get_semantic_search_tool` (lines 354–361) and a `tools=None`
  completion (lines 445–448), but none of these exist in
  `core/openai/openai_client.py`; per spec §4.2, `complete` with tools
  provided either answers directly or requests tool invocations, and
  with tools omitted behaves as the plain completion. -/
  chat_completion_with_tools :
    List OMsg → Except PyErr (Option (List Char) × List ToolCall)
  json_loads : List Char → Except PyErr ToolArgs
  get_embeddings : List (List Char) → Except PyErr (List Nat)
  query_vectors : Nat → Nat → List Char → Except PyErr (List QueryHit)

def roleStr : MessageRole → List Char
  | .user => "user".toList
  | .assistant => "assistant".toList

/-! ## History builders
(`build_message_history` and `build_message_history_with_text_extraction`) -/

/-- The generic-exception fallback of `build_message_history`
(`chat_handler.py` lines 136–160): re-download, extract text, inline the
first 8000 characters after the original content; on empty extraction
use the plain content, and on a second failure fall back to the plain
text message. -/
def textExtractionFallback (env : ChatEnv) (s3_key role content : List Char) :
    OMsg :=
  match (do
      let pdf_bytes ← env.download s3_key
      env.extract_text pdf_bytes : Except PyErr (List Char)) with
  | .ok pdf_text =>
    if (pyStrip pdf_text).isEmpty then OMsg.text role content
    else OMsg.text role
      (content ++ "\n\nPDF Content:\n".toList ++ pdf_text.take 8000)
  | .error _ => OMsg.text role content

/-- The `ImportError` fallback of `build_message_history` (lines
112–135): as `textExtractionFallback`, but a second failure annotates
the plain content with the missing-dependency note. -/
def textExtractionFallbackNote (env : ChatEnv)
    (s3_key role content : List Char) : OMsg :=
  match (do
      let pdf_bytes ← env.download s3_key
      env.extract_text pdf_bytes : Except PyErr (List Char)) with
  | .ok pdf_text =>
    if (pyStrip pdf_text).isEmpty then OMsg.text role content
    else OMsg.text role
      (content ++ "\n\nPDF Content:\n".toList ++ pdf_text.take 8000)
  | .error _ => OMsg.text role
      (content ++
        "\n\n[Note: PDF processing unavailable - install pymupdf: pip install pymupdf]".toList)

/-- The uploaded-file arm of `build_message_history` (lines 86–160):
download the PDF, render pages to images and attach them; an empty
render yields plain text; an `ImportError` or any other exception routes
to the corresponding text-extraction fallback. -/
def inlineUploadedMessage (env : ChatEnv) (s3_key role content : List Char) :
    OMsg :=
  match (do
      let pdf_bytes ← env.download s3_key
      env.pdf_to_images pdf_bytes : Except PyErr (List (List Char))) with
  | .ok images =>
    if images.isEmpty then OMsg.text role content
    else OMsg.withImages role content images
  | .error (.importError _) => textExtractionFallbackNote env s3_key role content
  | .error _ => textExtractionFallback env s3_key role content

/-- One message of `build_message_history` (lines 80–172): only messages
referencing a file that exists and is still `uploaded` are materialised
inline; completed or unresolved files yield plain text. -/
def historyMessage (env : ChatEnv) (db : DB) (m : StoredMessage) : OMsg :=
  match m.file_id with
  | some fid =>
    match findFile db fid with
    | some file =>
      if file.ingestion_status = .uploaded then
        inlineUploadedMessage env file.s3_key (roleStr m.role) m.content
      else OMsg.text (roleStr m.role) m.content
    | none => OMsg.text (roleStr m.role) m.content
  | none => OMsg.text (roleStr m.role) m.content

/-- `ChatHandler.build_message_history` (lines 57–174). -/
def build_message_history (env : ChatEnv) (db : DB) (cid : Nat) :
    List OMsg :=
  (messagesOf db cid).map (historyMessage env db)

/-- The uploaded-file arm of `build_message_history_with_text_extraction`
(lines 200–237): despite the name it first renders pages to images
exactly like the main builder, and only a conversion failure routes to
the text-extraction fallback (a single generic `except` arm). -/
def textExtractionUploadedMessage (env : ChatEnv)
    (s3_key role content : List Char) : OMsg :=
  match (do
      let pdf_bytes ← env.download s3_key
      env.pdf_to_images pdf_bytes : Except PyErr (List (List Char))) with
  | .ok images =>
    if images.isEmpty then OMsg.text role content
    else OMsg.withImages role content images
  | .error _ => textExtractionFallback env s3_key role content

/-- One message of `build_message_history_with_text_extraction`
(lines 197–247). -/
def historyMessageTextExtraction (env : ChatEnv) (db : DB)
    (m : StoredMessage) : OMsg :=
  match m.file_id with
  | some fid =>
    match findFile db fid with
    | some file =>
      if file.ingestion_status = .uploaded then
        textExtractionUploadedMessage env file.s3_key (roleStr m.role) m.content
      else OMsg.text (roleStr m.role) m.content
    | none => OMsg.text (roleStr m.role) m.content
  | none => OMsg.text (roleStr m.role) m.content

/-- `ChatHandler.build_message_history_with_text_extraction`
(lines 176–249). -/
def build_message_history_with_text_extraction (env : ChatEnv) (db : DB)
    (cid : Nat) : List OMsg :=
  (messagesOf db cid).map (historyMessageTextExtraction env db)

/-! ## The per-turn orchestrator (`ChatHandler.process_chat`) -/

/-- `ChatHandler.collect_file_ids_from_conversation` (lines 251–277):
walk the conversation's messages in order, collect distinct file ids in
first-seen order, and flag whether any of them has `completed` status
(checked only on first sight of each id). -/
def collect_file_ids (db : DB) (cid : Nat) : List (List Char) × Bool :=
  (messagesOf db cid).foldl
    (fun acc m =>
      match m.file_id with
      | some fid =>
        if acc.1.contains fid then acc
        else
          (acc.1 ++ [fid],
           acc.2 ||
             (match findFile db fid with
              | some f => f.ingestion_status == .completed
              | none => false))
      | none => acc)
    ([], false)

/-- The completed-current-file adjustment of `process_chat` (lines
332–337): when the just-validated file is `completed`, ensure its id is
in the collected set and force the completed flag. -/
def adjusted_file_ids (db : DB) (cid : Nat) (file : Option FileRec) :
    List (List Char) × Bool :=
  let collected := collect_file_ids db cid
  match file with
  | some f =>
    if f.ingestion_status == .completed then
      (if collected.1.contains f.id then collected.1
       else collected.1 ++ [f.id], true)
    else collected
  | none => collected

/-- The single-quote character, used by the filter expression. -/
def sq : Char := Char.ofNat 39

/-- The vector-index filter of lines 384–389: `file_id = <quoted id>`
clauses, OR-joined when there are several ids. -/
def build_filter (file_ids : List (List Char)) : List Char :=
  match file_ids with
  | [fid] => "file_id = ".toList ++ [sq] ++ fid ++ [sq]
  | _ =>
    List.intercalate (" OR ".toList)
      (file_ids.map (fun fid => "file_id = ".toList ++ [sq] ++ fid ++ [sq]))

/-- Execution of one requested tool call (lines 371–420): only
`semantic_search` is handled (other names are skipped silently); parse
the JSON arguments, default the query to the raw user message and
`top_k` to 5, embed the query (the `[0]` index into the embedding list
raises when it is empty), build the OR-filter over the conversation's
file ids, query the vector index, and shape each hit into a
`RetrievedChunk`.  Returns the synthetic tool-role message and the
retrieved chunks, or `none` for a skipped tool. -/
def run_tool_call (env : ChatEnv) (message : List Char)
    (file_ids : List (List Char)) (tc : ToolCall) :
    Except PyErr (Option (OMsg × List RetrievedChunk)) :=
  if tc.function_name = "semantic_search".toList then do
    let args ← env.json_loads tc.function_arguments
    let query := args.query.getD message
    let top_k := args.top_k.getD 5
    let query_embeddings ← env.get_embeddings [query]
    let query_vector ←
      match query_embeddings with
      | [] => throw (PyErr.otherError ("list index out of range".toList))
      | v :: _ => pure v
    let results ← env.query_vectors query_vector top_k (build_filter file_ids)
    let chunks := results.map
      (fun r => RetrievedChunk.mk (r.metadata_chunk_text.getD [])
        (r.score.getD 0))
    pure (some (OMsg.toolResult chunks chunks.length tc.id, chunks))
  else pure none

/-- The tool-call loop of lines 367–421: execute the requested calls in
order, accumulating tool messages and retrieved chunks in invocation
order; the first failing call aborts the loop with its exception. -/
def run_tool_calls (env : ChatEnv) (message : List Char)
    (file_ids : List (List Char)) :
    List ToolCall → Except PyErr (List OMsg × List RetrievedChunk)
  | [] => pure ([], [])
  | tc :: rest => do
    let r ← run_tool_call env message file_ids tc
    let (ms, cs) ← run_tool_calls env message file_ids rest
    match r with
    | some (m, chunks) => pure (m :: ms, chunks ++ cs)
    | none => pure (ms, cs)

/-- Python `response_text or None` (line 426): both `None` and the empty
string collapse to `None`. -/
def orNone (s : Option (List Char)) : Option (List Char) :=
  match s with
  | some [] => none
  | x => x

/-- The degrade-to-inline fallback of the RAG branch (lines 459–465): a
single direct completion whose own failure propagates (it runs inside
the `except` handler). -/
def rag_fallback (env : ChatEnv) (history : List OMsg) :
    Except PyErr (List Char × RetrievalMode × Option (List RetrievedChunk)) :=
  match env.chat_completion history with
  | .ok resp => .ok (resp, .inline, none)
  | .error e => .error e

/-- The RAG branch of `process_chat` (lines 349–465): complete once with
the `semantic_search` tool enabled.  If tool calls come back, execute
them, append the assistant tool-call echo and the tool results to the
history (the source mutates `message_history` in place, so a failing
second completion hands the *extended* history to the fallback), and
complete once more — recording mode `rag` with the union of retrieved
chunks.  If the backend answered directly, record mode `inline` with no
chunks and run no retrieval pass.  Any exception inside the branch
degrades to one direct completion recorded as `inline`. -/
def rag_turn (env : ChatEnv) (message : List Char) (history : List OMsg)
    (file_ids : List (List Char)) :
    Except PyErr (List Char × RetrievalMode × Option (List RetrievedChunk)) :=
  match env.chat_completion_with_tools history with
  | .error _ => rag_fallback env history
  | .ok (response_text, tool_calls) =>
    match tool_calls with
    | [] => .ok (response_text.getD [], .inline, none)
    | _ =>
      match run_tool_calls env message file_ids tool_calls with
      | .error _ => rag_fallback env history
      | .ok (tool_messages, all_chunks) =>
        let extended := history ++
          [OMsg.assistantToolCalls (orNone response_text) tool_calls] ++
          tool_messages
        match env.chat_completion extended with
        | .ok final => .ok (final, .rag, some all_chunks)
        | .error _ => rag_fallback env extended

/-- Character-list prefix test (Python `str.startswith`). -/
def hasPrefixChars : List Char → List Char → Bool
  | [], _ => true
  | _ :: _, [] => false
  | a :: as, b :: bs => a == b && hasPrefixChars as bs

/-- Python's substring containment `pat in hay`. -/
def hasInfixChars (pat : List Char) : List Char → Bool
  | [] => pat.isEmpty
  | c :: rest => hasPrefixChars pat (c :: rest) || hasInfixChars pat rest

/-- `ValueError` text classification of the inline-mode retry (line
475): the message marks a rejection of the inlined format. -/
def isFormatRejection (e : PyErr) : Bool :=
  match e with
  | .valueError msg =>
    hasInfixChars ("Invalid MIME type".toList) msg ||
    hasInfixChars ("invalid_image_format".toList) msg
  | _ => false

/-- The inline branch of `process_chat` (lines 466–484): one direct
completion; when it fails with a `ValueError` marking a format
rejection, rebuild the history with the text-extraction builder and
retry exactly once (the retry is unguarded, so its failure propagates);
any other failure propagates unchanged. -/
def inline_turn (env : ChatEnv) (db : DB) (cid : Nat)
    (history : List OMsg) : Except PyErr (List Char) :=
  match env.chat_completion history with
  | .ok resp => .ok resp
  | .error e =>
    if isFormatRejection e then
      env.chat_completion (build_message_history_with_text_extraction env db cid)
    else .error e

/-- `MessageDAO.create` for the user turn (lines 315–321): role `user`,
the validated file's id, no retrieval mode, no chunks. -/
def mkUserMessage (cid : Nat) (content : List Char)
    (file : Option FileRec) : StoredMessage :=
  ⟨cid, .user, content, file.map (fun f => f.id), none, none⟩

/-- `MessageDAO.create` for the assistant turn (lines 487–494): role
`assistant`, the resolved retrieval mode (always set), the resolved
chunks. -/
def mkAssistantMessage (cid : Nat) (content : List Char)
    (mode : RetrievalMode) (chunks : Option (List RetrievedChunk)) :
    StoredMessage :=
  ⟨cid, .assistant, content, none, some mode, chunks⟩

/-- The tuple returned by a successful `process_chat`. -/
structure ChatOutcome where
  conversation_id : Nat
  user_message : StoredMessage
  response : List Char
  retrieval_mode : RetrievalMode
  retrieved_chunks : Option (List RetrievedChunk)
deriving DecidableEq

/-- The committed state right after the user-message commit of line 324:
the pre-turn state plus the new user message. -/
def userCommitted (db1 : DB) (cid : Nat) (message : List Char)
    (file : Option FileRec) : DB :=
  { db1 with messages := db1.messages ++ [mkUserMessage cid message file] }

/-- The mode-resolution core of `process_chat` (lines 327–484): collect
and adjust the conversation's file ids, build the history, and branch on
`has_completed_files and file_ids` into the RAG branch or the inline
branch (whose result always carries mode `inline` and no chunks). -/
def turn_outcome (env : ChatEnv) (db2 : DB) (cid : Nat)
    (message : List Char) (file : Option FileRec) :
    Except PyErr (List Char × RetrievalMode × Option (List RetrievedChunk)) :=
  let adjusted := adjusted_file_ids db2 cid file
  let history := build_message_history env db2 cid
  if adjusted.2 && !adjusted.1.isEmpty then
    rag_turn env message history adjusted.1
  else
    (inline_turn env db2 cid history).map
      (fun r => (r, RetrievalMode.inline,
        (none : Option (List RetrievedChunk))))

/-- The tail of `process_chat` (lines 486–499): on success persist the
assistant message with the resolved mode and chunks and commit; an
escaping exception leaves the committed state at `db2`. -/
def finish_turn (db2 : DB) (cid : Nat) (user_message : StoredMessage)
    (outcome :
      Except PyErr (List Char × RetrievalMode × Option (List RetrievedChunk))) :
    Except PyErr ChatOutcome × DB :=
  match outcome with
  | .error e => (.error e, db2)
  | .ok (resp, mode, chunks) =>
    (.ok ⟨cid, user_message, resp, mode, chunks⟩,
     { db2 with
        messages := db2.messages ++ [mkAssistantMessage cid resp mode chunks] })

/-- The body of `process_chat` after file validation (lines 314–499):
persist and commit the user message (the commit at line 324 makes the
post-user-message state the durable one for the rest of the turn), then
resolve the turn and finish it. -/
def process_chat_validated (env : ChatEnv) (db1 : DB) (cid : Nat)
    (message : List Char) (file : Option FileRec) :
    Except PyErr ChatOutcome × DB :=
  finish_turn (userCommitted db1 cid message file) cid
    (mkUserMessage cid message file)
    (turn_outcome env (userCommitted db1 cid message file) cid message file)

/-- `ChatHandler.process_chat` (lines 279–499): resolve or create the
conversation, validate a supplied file id (`ValueError` before anything
is committed when it does not resolve), then run the turn body.  Returns
the propagated outcome and the committed database state. -/
def process_chat (env : ChatEnv) (db0 : DB) (message : List Char)
    (conversation_id : Option Nat) (file_id : Option (List Char)) :
    Except PyErr ChatOutcome × DB :=
  match file_id with
  | some fid =>
    match findFile (get_or_create_conversation db0 conversation_id).2 fid with
    | none =>
      (.error (.valueError ("File with id ".toList ++ fid ++
        " not found".toList)), db0)
    | some file =>
      process_chat_validated env (get_or_create_conversation db0 conversation_id).2
        (get_or_create_conversation db0 conversation_id).1 message (some file)
  | none =>
    process_chat_validated env (get_or_create_conversation db0 conversation_id).2
      (get_or_create_conversation db0 conversation_id).1 message none

/-- The per-message field discipline of the persisted history: user
messages never carry `retrieval_mode` or `retrieved_chunks`; assistant
messages always carry a mode and carry a non-null chunk list exactly
when that mode is `rag`. -/
def message_fields_ok (m : StoredMessage) : Prop :=
  (m.role = .user → m.retrieval_mode = none ∧ m.retrieved_chunks = none) ∧
  (m.role = .assistant → ∃ mo, m.retrieval_mode = some mo ∧
    (m.retrieved_chunks ≠ none ↔ mo = .rag))

/-! ## Concrete fixtures used by witnesses -/

/-- A pipeline environment whose S3 download step fails; every other
collaborator succeeds trivially. -/
def failingDownloadEnv : PipelineEnv where
  file? := some ⟨"f".toList, "uploads/f.pdf".toList, .uploaded⟩
  download := fun _ => .error (.stepFailure ("download".toList))
  extract_text := fun _ => .ok []
  printable := fun _ => true
  embed := fun _ => .ok []
  upsert := fun _ _ _ => .ok ()

/-- A document whose ingestion has completed, and a database holding
only it. -/
def completedFile : FileRec := ⟨"f1".toList, "uploads/f1.pdf".toList, .completed⟩

def completedFileDB : DB := ⟨[], [], [completedFile]⟩

/-- A completion backend that always answers directly without requesting
the tool; every collaborator that should not be consulted fails if it
is. -/
def directAnswerEnv : ChatEnv where
  download := fun _ => .error (.otherError ("s3".toList))
  pdf_to_images := fun _ => .error (.otherError ("fitz".toList))
  extract_text := fun _ => .error (.otherError ("pdf".toList))
  chat_completion := fun _ => .ok ("plain completion".toList)
  chat_completion_with_tools := fun _ => .ok (some ("direct answer".toList), [])
  json_loads := fun _ => .error (.otherError ("json".toList))
  get_embeddings := fun _ => .error (.otherError ("embed".toList))
  query_vectors := fun _ _ _ => .error (.otherError ("query".toList))

/-- An uploaded (not yet ingested) document referenced by a prior
message of conversation 1, and the database holding that turn. -/
def uploadedFile : FileRec := ⟨"f2".toList, "uploads/f2.pdf".toList, .uploaded⟩

def priorUploadedMessage : StoredMessage :=
  ⟨1, .user, "hi".toList, some ("f2".toList), none, none⟩

def uploadedFileDB : DB := ⟨[1], [priorUploadedMessage], [uploadedFile]⟩

/-- The committed state of `uploadedFileDB` after a new user turn
with no attached file. -/
def uploadedFileTurnDB : DB := userCommitted uploadedFileDB 1 ("again".toList) none

def mimeError : PyErr :=
  .valueError ("Invalid MIME type: application/pdf".toList)

def hasImages : OMsg → Bool
  | .withImages _ _ _ => true
  | _ => false

/-- A backend that renders page images successfully but rejects every
history containing an image message with a MIME-type `ValueError`. -/
def mimeRejectingEnv : ChatEnv where
  download := fun _ => .ok 0
  pdf_to_images := fun _ => .ok [("img".toList)]
  extract_text := fun _ => .ok ("extracted text".toList)
  chat_completion := fun h =>
    if h.any hasImages then .error mimeError else .ok ("ok".toList)
  chat_completion_with_tools := fun _ => .error (.otherError ("unused".toList))
  json_loads := fun _ => .error (.otherError ("json".toList))
  get_embeddings := fun _ => .error (.otherError ("embed".toList))
  query_vectors := fun _ _ _ => .error (.otherError ("query".toList))

def emptyDB : DB := ⟨[], [], []⟩

/-- A completion backend that is down: every completion call fails with
a non-`ValueError` exception. -/
def failingCompletionEnv : ChatEnv where
  download := fun _ => .error (.otherError ("s3".toList))
  pdf_to_images := fun _ => .error (.otherError ("fitz".toList))
  extract_text := fun _ => .error (.otherError ("pdf".toList))
  chat_completion := fun _ => .error (.otherError ("backend down".toList))
  chat_completion_with_tools := fun _ => .error (.otherError ("backend down".toList))
  json_loads := fun _ => .error (.otherError ("json".toList))
  get_embeddings := fun _ => .error (.otherError ("embed".toList))
  query_vectors := fun _ _ _ => .error (.otherError ("query".toList))

/-- A completion backend that answers every plain completion. -/
def okCompletionEnv : ChatEnv where
  download := fun _ => .error (.otherError ("s3".toList))
  pdf_to_images := fun _ => .error (.otherError ("fitz".toList))
  extract_text := fun _ => .error (.otherError ("pdf".toList))
  chat_completion := fun _ => .ok ("fine".toList)
  chat_completion_with_tools := fun _ => .error (.otherError ("unused".toList))
  json_loads := fun _ => .error (.otherError ("json".toList))
  get_embeddings := fun _ => .error (.otherError ("embed".toList))
  query_vectors := fun _ _ _ => .error (.otherError ("query".toList))

/-! # Theorems

Everything below this point is a theorem about the definitions above. -/

theorem pyStrip_length_le (l : List Char) : (pyStrip l).length ≤ l.length := by
  have h1 : ∀ (xs : List Char), (xs.dropWhile pyIsSpace).length ≤ xs.length := by
    intro xs
    induction xs with
    | nil => simp [List.dropWhile]
    | cons a as ih =>
      by_cases h : pyIsSpace a
      · simp [List.dropWhile, h]; omega
      · simp [List.dropWhile, h]
  calc (pyStrip l).length
      = ((l.dropWhile pyIsSpace).reverse.dropWhile pyIsSpace).length := by
        simp [pyStrip]
    _ ≤ (l.dropWhile pyIsSpace).reverse.length := h1 _
    _ = (l.dropWhile pyIsSpace).length := by simp
    _ ≤ l.length := h1 l

theorem pySlice_length_le (text : List Char) (start e : Nat) :
    (pySlice text start e).length ≤ e - start := by
  simp only [pySlice, List.length_take]
  omega

/-- More fuel than `text.length - start` never changes the loop's result:
the loop reaches the end of the text in at most `text.length - start`
iterations. -/
theorem chunkLoop_fuel_irrelevant (text : List Char) (csc oc sl : Nat) :
    ∀ (n start f1 f2 : Nat), text.length - start ≤ n →
      text.length - start ≤ f1 → text.length - start ≤ f2 →
      chunkLoop text csc oc sl start f1 = chunkLoop text csc oc sl start f2 := by
  intro n
  induction n with
  | zero =>
    intro start f1 f2 hn h1 h2
    have hs : text.length ≤ start := by omega
    have hlt : ¬ start < text.length := by omega
    cases f1 with
    | zero =>
      cases f2 with
      | zero => rfl
      | succ b => simp [chunkLoop, hlt]
    | succ a =>
      cases f2 with
      | zero => simp [chunkLoop, hlt]
      | succ b => simp [chunkLoop, hlt]
  | succ n ih =>
    intro start f1 f2 hn h1 h2
    by_cases hlt : start < text.length
    · have hpos : 1 ≤ text.length - start := by omega
      cases f1 with
      | zero => omega
      | succ a =>
        cases f2 with
        | zero => omega
        | succ b =>
          simp only [chunkLoop, hlt, if_true]
          have hrec : ∀ e, ¬ text.length ≤ e →
              chunkLoop text csc oc sl (max (start + 1) (e - oc)) a =
              chunkLoop text csc oc sl (max (start + 1) (e - oc)) b := by
            intro e _
            have hs' : start + 1 ≤ max (start + 1) (e - oc) := le_max_left _ _
            exact ih (max (start + 1) (e - oc)) a b (by omega) (by omega) (by omega)
          by_cases he : text.length ≤ windowEnd text csc sl start
          · simp [he]
          · simp [he, hrec _ he]
    · have h0 : text.length - start = 0 := by omega
      cases f1 with
      | zero =>
        cases f2 with
        | zero => rfl
        | succ b => simp [chunkLoop, hlt]
      | succ a =>
        cases f2 with
        | zero => simp [chunkLoop, hlt]
        | succ b => simp [chunkLoop, hlt]

theorem scanBack_le (text : List Char) :
    ∀ (k i j : Nat), scanBack text i k = some j → j ≤ i := by
  intro k
  induction k with
  | zero => intro i j h; simp [scanBack] at h
  | succ k ih =>
    intro i j h
    unfold scanBack at h
    by_cases hc : (i < text.length && isBoundaryChar (text.getD i 'x')) = true
    · simp only [hc, if_true, Option.some.injEq] at h
      omega
    · simp only [hc, if_false, Bool.not_eq_true] at h
      have := ih (i - 1) j h
      omega

theorem windowEnd_le (text : List Char) (csc sl start : Nat) :
    windowEnd text csc sl start ≤ start + csc + 1 := by
  unfold windowEnd
  by_cases he : start + csc < text.length
  · simp only [he, if_true]
    cases hs : scanBack text (start + csc)
        (start + csc - max start (start + csc - sl)) with
    | none => simp
    | some i =>
      simp only []
      have := scanBack_le text _ _ _ hs
      omega
  · simp only [he, if_false]
    omega

theorem chunkLoop_mem (text : List Char) (csc oc sl : Nat) :
    ∀ (fuel start : Nat) (c : List Char),
      c ∈ chunkLoop text csc oc sl start fuel →
      c ≠ [] ∧ c.length ≤ csc + 1 := by
  intro fuel
  induction fuel with
  | zero => intro start c hc; simp [chunkLoop] at hc
  | succ fuel ih =>
    intro start c hc
    unfold chunkLoop at hc
    by_cases hlt : start < text.length
    · simp only [hlt, if_true] at hc
      have hchunk : ∀ (d : List Char),
          d = pyStrip (pySlice text start (windowEnd text csc sl start)) →
          d.length ≤ csc + 1 := by
        intro d hd
        subst hd
        have h1 := pyStrip_length_le (pySlice text start (windowEnd text csc sl start))
        have h2 := pySlice_length_le text start (windowEnd text csc sl start)
        have h3 := windowEnd_le text csc sl start
        omega
      by_cases hend : text.length ≤ windowEnd text csc sl start
      · simp only [hend, if_true] at hc
        by_cases hempty : pyStrip (pySlice text start (windowEnd text csc sl start)) = []
        · simp [hempty] at hc
        · simp only [hempty, if_false, List.mem_singleton] at hc
          exact ⟨hc ▸ hempty, hchunk c hc⟩
      · simp only [hend, if_false] at hc
        by_cases hempty : pyStrip (pySlice text start (windowEnd text csc sl start)) = []
        · simp only [hempty, if_true] at hc
          exact ih _ c hc
        · simp only [hempty, if_false, List.mem_cons] at hc
          rcases hc with hc | hc
          · exact ⟨hc ▸ hempty, hchunk c hc⟩
          · exact ih _ c hc
    · simp [hlt] at hc

/-- **C6**: for every input text and parameters `chunk_size ≥ 1`,
`overlap ≥ 0`, `chunk_text` terminates: on every iteration of the
sliding-window loop the window start strictly advances by at least one
character (the next start is `max (previous_start + 1) (window_end -
overlap_chars)`), so the loop reaches the end of the text in at most
`text.length` iterations — running the loop with any fuel of at least
`text.length` yields the same result as running it with exactly
`text.length`. -/
theorem chunk_text_terminates (text : List Char) (cs ov : Nat)
    (hcs : 1 ≤ cs) :
    (∀ start e : Nat, start < max (start + 1) (e - ov * 4)) ∧
    (∀ fuel : Nat, text.length ≤ fuel →
      chunk_text_fuel text cs ov fuel = chunk_text text cs ov) := by
  constructor
  · intro start e
    have := le_max_left (start + 1) (e - ov * 4)
    omega
  · intro fuel hf
    unfold chunk_text chunk_text_fuel
    by_cases h1 : (text.isEmpty || (pyStrip text).isEmpty) = true
    · simp [h1]
    · simp only [h1, if_false, Bool.not_eq_true]
      by_cases h2 : text.length ≤ cs * 4
      · simp [h2]
      · simp only [h2, if_false]
        exact chunkLoop_fuel_irrelevant text (cs * 4) (ov * 4) (cs * 4 * 2 / 10)
          text.length 0 fuel text.length (by omega) (by omega) (by omega)

theorem chunk_text_terminates_witness :
    chunk_text_fuel ("abcdefgh".toList) 1 0 20 =
      chunk_text ("abcdefgh".toList) 1 0 :=
  (chunk_text_terminates ("abcdefgh".toList) 1 0 (by decide)).2 20 (by decide)

/-- **C7**: for every input whose length is at most the single-chunk
character budget (`4 * chunk_size` characters), `chunk_text` returns the
empty list when the input is empty or whitespace-only, and otherwise the
one-element list holding the input with leading and trailing whitespace
trimmed. -/
theorem chunk_text_single_chunk (text : List Char) (cs ov : Nat)
    (h : text.length ≤ 4 * cs) :
    chunk_text text cs ov =
      if pyStrip text = [] then [] else [pyStrip text] := by
  unfold chunk_text chunk_text_fuel
  by_cases h0 : pyStrip text = []
  · simp [h0]
  · have hne : ¬ text.isEmpty = true := by
      intro h'
      have : text = [] := by simpa [List.isEmpty_iff] using h'
      subst this
      simp [pyStrip] at h0
    have hcond : (text.isEmpty || (pyStrip text).isEmpty) = false := by
      simp only [Bool.or_eq_false_iff]
      constructor
      · simpa using hne
      · simpa [List.isEmpty_iff] using h0
    simp only [hcond, if_false, Bool.false_eq_true]
    have h2 : text.length ≤ cs * 4 := by omega
    simp [h2, h0]

theorem chunk_text_single_chunk_witness :
    chunk_text ("  hi  ".toList) 2 0 =
      if pyStrip ("  hi  ".toList) = [] then []
      else [pyStrip ("  hi  ".toList)] :=
  chunk_text_single_chunk ("  hi  ".toList) 2 0 (by decide)

/-- **C8**: `chunk_text` is deterministic — two runs on identical text,
`chunk_size` and `overlap` arguments return identical chunk sequences
(the embedding is a pure function of its arguments, mirroring the
source's freedom from hidden state). -/
theorem chunk_text_deterministic (t1 t2 : List Char) (cs1 cs2 ov1 ov2 : Nat)
    (ht : t1 = t2) (hc : cs1 = cs2) (ho : ov1 = ov2) :
    chunk_text t1 cs1 ov1 = chunk_text t2 cs2 ov2 := by
  subst ht; subst hc; subst ho; rfl

theorem chunk_text_deterministic_witness :
    chunk_text ("some text".toList) 1 2 = chunk_text ("some text".toList) 1 2 :=
  chunk_text_deterministic ("some text".toList) ("some text".toList)
    1 1 2 2 rfl rfl rfl

/-- **C9**: for every input text and parameters `chunk_size ≥ 1`,
`overlap ≥ 0`, every string returned by `chunk_text` is non-empty and
has length at most `4 * chunk_size + 1` characters (the word-boundary
scan starts at the nominal window end itself, so a window may extend one
character past the nominal budget before trimming). -/
theorem chunk_text_chunk_bounds (text : List Char) (cs ov : Nat)
    (hcs : 1 ≤ cs) :
    ∀ c ∈ chunk_text text cs ov, c ≠ [] ∧ c.length ≤ 4 * cs + 1 := by
  intro c hc
  unfold chunk_text chunk_text_fuel at hc
  cases hb : (text.isEmpty || (pyStrip text).isEmpty) with
  | true => simp [hb] at hc
  | false =>
    simp only [hb, Bool.false_eq_true, if_false] at hc
    by_cases h2 : text.length ≤ cs * 4
    · simp only [h2, if_true, List.mem_singleton] at hc
      subst hc
      refine ⟨?_, ?_⟩
      · intro h'
        rw [h'] at hb
        simp at hb
      · have := pyStrip_length_le text
        omega
    · simp only [h2, if_false] at hc
      have := chunkLoop_mem text (cs * 4) (ov * 4) (cs * 4 * 2 / 10)
        text.length 0 c hc
      exact ⟨this.1, by omega⟩

theorem chunk_text_chunk_bounds_witness :
    ("a b".toList) ≠ [] ∧ ("a b".toList).length ≤ 4 * 1 + 1 :=
  chunk_text_chunk_bounds ("a b".toList) 1 0 (by decide)
    ("a b".toList) (by decide)

/-- The pattern body `uploads/(<uuid>)\.pdf` matches a whole candidate
string exactly when that string is prefix, UUID and extension. -/
theorem uploadKeyMatch_spec (body u : List Char) :
    uploadKeyMatch body = some u ↔
      body = uploadsHead ++ u ++ pdfSuffix ∧ isUuidChars u = true := by
  constructor
  · intro h
    unfold uploadKeyMatch at h
    by_cases hc : body.length = 48 ∧ body.take 8 = uploadsHead ∧
        body.drop 44 = pdfSuffix ∧ isUuidChars ((body.drop 8).take 36) = true
    · rw [if_pos hc] at h
      obtain ⟨hlen, htake, hdrop, huuid⟩ := hc
      have hu : u = (body.drop 8).take 36 := by
        injection h with h'
        exact h'.symm
      subst hu
      refine ⟨?_, huuid⟩
      have h1 : body.take 8 ++ body.drop 8 = body := List.take_append_drop 8 body
      have h2 : (body.drop 8).take 36 ++ (body.drop 8).drop 36 = body.drop 8 :=
        List.take_append_drop 36 (body.drop 8)
      have h3 : (body.drop 8).drop 36 = body.drop 44 := by
        rw [List.drop_drop]
      calc body = body.take 8 ++ body.drop 8 := h1.symm
        _ = body.take 8 ++ ((body.drop 8).take 36 ++ (body.drop 8).drop 36) := by
            rw [h2]
        _ = uploadsHead ++ ((body.drop 8).take 36 ++ pdfSuffix) := by
            rw [htake, h3, hdrop]
        _ = uploadsHead ++ (body.drop 8).take 36 ++ pdfSuffix := by
            rw [List.append_assoc]
    · rw [if_neg hc] at h
      exact absurd h (by simp)
  · rintro ⟨hk, hu⟩
    have hulen : u.length = 36 := by
      unfold isUuidChars at hu
      have h36 := (Bool.and_eq_true _ _).mp hu
      simpa using h36.1
    have hpre : uploadsHead.length = 8 := by decide
    have hsuf : pdfSuffix.length = 4 := by decide
    subst hk
    have hlen : (uploadsHead ++ u ++ pdfSuffix).length = 48 := by
      simp [List.length_append, hulen, hpre, hsuf]
    have htake : (uploadsHead ++ u ++ pdfSuffix).take 8 = uploadsHead := by
      rw [List.append_assoc]
      rw [show (8 : Nat) = uploadsHead.length from hpre.symm]
      exact List.take_left _ _
    have hdrop8 : (uploadsHead ++ u ++ pdfSuffix).drop 8 = u ++ pdfSuffix := by
      rw [List.append_assoc]
      rw [show (8 : Nat) = uploadsHead.length from hpre.symm]
      exact List.drop_left _ _
    have hmid : ((uploadsHead ++ u ++ pdfSuffix).drop 8).take 36 = u := by
      rw [hdrop8, show (36 : Nat) = u.length from hulen.symm]
      exact List.take_left _ _
    have hdrop44 : (uploadsHead ++ u ++ pdfSuffix).drop 44 = pdfSuffix := by
      have h44 : (44 : Nat) = (uploadsHead ++ u).length := by
        simp [List.length_append, hulen, hpre]
      rw [h44]
      exact List.drop_left _ _
    unfold uploadKeyMatch
    rw [if_pos ⟨hlen, htake, hdrop44, by rw [hmid]; exact hu⟩]
    rw [hmid]

/-- **C10** fails on the code: Python's `$` also matches just before a
newline at the end of the string, so `re.match` accepts the key
`uploads/<uuid>.pdf\n` — a key with an extra character — returning the
UUID, and `create_file_from_s3_event` then creates a Document row for
it instead of rejecting the event. -/
theorem extract_file_id_newline_counterexample :
    extract_file_id_from_s3_key
        ("uploads/01234567-89ab-cdef-0123-456789abcdef.pdf\n".toList) =
      some ("01234567-89ab-cdef-0123-456789abcdef".toList) ∧
    create_file_from_s3_event []
        ("uploads/01234567-89ab-cdef-0123-456789abcdef.pdf\n".toList) =
      (some ⟨"01234567-89ab-cdef-0123-456789abcdef".toList,
             "uploads/01234567-89ab-cdef-0123-456789abcdef.pdf\n".toList,
             .uploaded⟩,
       [⟨"01234567-89ab-cdef-0123-456789abcdef".toList,
         "uploads/01234567-89ab-cdef-0123-456789abcdef.pdf\n".toList,
         .uploaded⟩]) := by
  constructor <;> decide

/-- **C10 (amended)**: `extract_file_id_from_s3_key` returns a UUID
string exactly when the key is `uploads/<uuid>.pdf` with the UUID in
lowercase hexadecimal (hyphens at offsets 8, 13, 18, 23), optionally
followed by one trailing newline (which Python's `$` accepts); on every
other key it returns `None`, and `create_file_from_s3_event` then
returns `None` with the files table unchanged, so the upload-event
handler rejects the event without creating a Document row. -/
theorem extract_file_id_spec (key u : List Char) (files : List FileRec) :
    (extract_file_id_from_s3_key key = some u ↔
      (key = uploadsHead ++ u ++ pdfSuffix ∨
       key = uploadsHead ++ u ++ pdfSuffix ++ ['\n']) ∧
      isUuidChars u = true) ∧
    (extract_file_id_from_s3_key key = none →
      create_file_from_s3_event files key = (none, files)) := by
  constructor
  · constructor
    · intro h
      unfold extract_file_id_from_s3_key at h
      by_cases hlast : key.getLast? = some '\n'
      · rw [if_pos hlast] at h
        obtain ⟨hk, hu⟩ := (uploadKeyMatch_spec key.dropLast u).mp h
        refine ⟨Or.inr ?_, hu⟩
        have hne : key ≠ [] := by
          intro h0
          subst h0
          simp at hlast
        have hsplit : key.dropLast ++ [key.getLast hne] = key :=
          List.dropLast_append_getLast hne
        have hl : key.getLast hne = '\n' := by
          have hx := List.getLast?_eq_getLast key hne
          rw [hlast] at hx
          exact (Option.some.inj hx).symm
        calc key = key.dropLast ++ [key.getLast hne] := hsplit.symm
          _ = uploadsHead ++ u ++ pdfSuffix ++ ['\n'] := by rw [hk, hl]
      · rw [if_neg hlast] at h
        exact ⟨Or.inl ((uploadKeyMatch_spec key u).mp h).1,
          ((uploadKeyMatch_spec key u).mp h).2⟩
    · rintro ⟨hk | hk, hu⟩
      · have hx : pdfSuffix = (".pd".toList) ++ (['f'] : List Char) := by decide
        subst hk
        have hlast : (uploadsHead ++ u ++ pdfSuffix).getLast? = some 'f' := by
          rw [hx, ← List.append_assoc]
          exact List.getLast?_concat _
        unfold extract_file_id_from_s3_key
        rw [if_neg (by rw [hlast]; simp)]
        exact (uploadKeyMatch_spec _ u).mpr ⟨rfl, hu⟩
      · subst hk
        have hlast : (uploadsHead ++ u ++ pdfSuffix ++ ['\n']).getLast? =
            some '\n' := List.getLast?_concat _
        unfold extract_file_id_from_s3_key
        rw [if_pos hlast, List.dropLast_concat]
        exact (uploadKeyMatch_spec _ u).mpr ⟨rfl, hu⟩
  · intro h
    unfold create_file_from_s3_event
    rw [h]

theorem extract_file_id_spec_witness :
    extract_file_id_from_s3_key
        ("uploads/01234567-89ab-cdef-0123-456789abcdef.pdf".toList) =
      some ("01234567-89ab-cdef-0123-456789abcdef".toList) ∧
    create_file_from_s3_event []
        ("uploads/01234567-89AB-cdef-0123-456789abcdef.pdf".toList) =
      (none, []) :=
  ⟨(extract_file_id_spec _ ("01234567-89ab-cdef-0123-456789abcdef".toList)
      []).1.mpr ⟨Or.inl (by decide), by decide⟩,
   (extract_file_id_spec
      ("uploads/01234567-89AB-cdef-0123-456789abcdef.pdf".toList) [] []).2
      (by decide)⟩

/-- **C5**: whenever any pipeline step (fetch bytes, extract text,
empty-text check, chunk, embed, upsert) raises — which presupposes the
file row exists — `process_file_ingestion` writes the document's status
to `failed` and re-raises the triggering exception, while the
background-task runner absorbs it (its return type carries no exception,
only the logged error); the status write is `completed` exactly when
every step succeeded. -/
theorem ingestion_failure_and_success (env : PipelineEnv)
    (file_id : List Char) :
    (∀ e : PipeErr, pipeline_steps env file_id = .error e →
      env.file?.isSome = true →
      process_file_ingestion env file_id = (.error e, some .failed) ∧
      process_ingestion_background env file_id = (some .failed, some e)) ∧
    ((process_file_ingestion env file_id).2 = some .completed ↔
      pipeline_steps env file_id = .ok ()) := by
  constructor
  · intro e he hsome
    constructor
    · simp [process_file_ingestion, he, hsome]
    · simp [process_ingestion_background, process_file_ingestion, he, hsome]
  · constructor
    · intro h
      cases hps : pipeline_steps env file_id with
      | ok u => cases u; rfl
      | error e =>
        rw [process_file_ingestion, hps] at h
        by_cases hsome : env.file?.isSome = true
        · simp [hsome] at h
        · simp [hsome] at h
    · intro h
      simp [process_file_ingestion, h]

theorem ingestion_failure_and_success_witness :
    process_ingestion_background failingDownloadEnv ("f".toList) =
      (some .failed, some (.stepFailure ("download".toList))) :=
  ((ingestion_failure_and_success failingDownloadEnv ("f".toList)).1
    (.stepFailure ("download".toList)) rfl rfl).2

/-! ## Orchestrator lemmas -/

theorem get_or_create_messages (db : DB) (cid? : Option Nat) :
    ((get_or_create_conversation db cid?).2).messages = db.messages := by
  unfold get_or_create_conversation
  cases cid? with
  | none => rfl
  | some cid =>
    by_cases h : cid ∈ db.conversations
    · simp [h]
    · simp [h]

theorem rag_fallback_ok (env : ChatEnv) (history : List OMsg)
    (resp : List Char) (mode : RetrievalMode)
    (chunks : Option (List RetrievedChunk))
    (h : rag_fallback env history = .ok (resp, mode, chunks)) :
    mode = .inline ∧ chunks = none := by
  unfold rag_fallback at h
  cases hc : env.chat_completion history with
  | ok r =>
    rw [hc] at h
    simp only [Except.ok.injEq, Prod.mk.injEq] at h
    exact ⟨h.2.1.symm, h.2.2.symm⟩
  | error e =>
    rw [hc] at h
    exact absurd h (by simp)

/-- The RAG branch yields mode `rag` together with a non-null chunk list,
or mode `inline` together with a null one. -/
theorem rag_turn_mode_spec (env : ChatEnv) (message : List Char)
    (history : List OMsg) (file_ids : List (List Char))
    (resp : List Char) (mode : RetrievalMode)
    (chunks : Option (List RetrievedChunk))
    (h : rag_turn env message history file_ids = .ok (resp, mode, chunks)) :
    (mode = .rag ∧ chunks ≠ none) ∨ (mode = .inline ∧ chunks = none) := by
  unfold rag_turn at h
  cases h1 : env.chat_completion_with_tools history with
  | error e =>
    rw [h1] at h
    exact Or.inr (rag_fallback_ok env history resp mode chunks h)
  | ok p =>
    obtain ⟨rt, tcs⟩ := p
    rw [h1] at h
    cases tcs with
    | nil =>
      simp only [Except.ok.injEq, Prod.mk.injEq] at h
      exact Or.inr ⟨h.2.1.symm, h.2.2.symm⟩
    | cons a as =>
      simp only [] at h
      cases h2 : run_tool_calls env message file_ids (a :: as) with
      | error e =>
        rw [h2] at h
        exact Or.inr (rag_fallback_ok env history resp mode chunks h)
      | ok q =>
        obtain ⟨tms, cks⟩ := q
        rw [h2] at h
        simp only [] at h
        cases h3 : env.chat_completion (history ++
            [OMsg.assistantToolCalls (orNone rt) (a :: as)] ++ tms) with
        | ok final =>
          rw [h3] at h
          simp only [Except.ok.injEq, Prod.mk.injEq] at h
          refine Or.inl ⟨h.2.1.symm, ?_⟩
          rw [← h.2.2]
          simp
        | error e =>
          rw [h3] at h
          exact Or.inr (rag_fallback_ok env _ resp mode chunks h)

/-- The resolved turn yields mode `rag` with a non-null chunk list or
mode `inline` with a null one. -/
theorem turn_outcome_mode_spec (env : ChatEnv) (db2 : DB) (cid : Nat)
    (message : List Char) (file : Option FileRec)
    (resp : List Char) (mode : RetrievalMode)
    (chunks : Option (List RetrievedChunk))
    (h : turn_outcome env db2 cid message file = .ok (resp, mode, chunks)) :
    (mode = .rag ∧ chunks ≠ none) ∨ (mode = .inline ∧ chunks = none) := by
  unfold turn_outcome at h
  by_cases hb : ((adjusted_file_ids db2 cid file).2 &&
      !(adjusted_file_ids db2 cid file).1.isEmpty) = true
  · rw [if_pos hb] at h
    exact rag_turn_mode_spec env message _ _ resp mode chunks h
  · rw [if_neg hb] at h
    cases hi : inline_turn env db2 cid (build_message_history env db2 cid) with
    | ok r =>
      rw [hi] at h
      simp only [Except.map, Except.ok.injEq, Prod.mk.injEq] at h
      exact Or.inr ⟨h.2.1.symm, h.2.2.symm⟩
    | error e =>
      rw [hi] at h
      exact absurd h (by simp [Except.map])

/-- **C1** fails on the code: on a turn whose collected document set
contains a `completed` document, when the completion backend answers
without requesting the tool, `process_chat` records retrieval mode
`inline` and a null retrieved-chunks list — no forced retrieval pass
runs (`chat_handler.py` lines 454–457). -/
theorem rag_direct_answer_counterexample :
    (findFile completedFileDB ("f1".toList)).map
        (fun f => f.ingestion_status) = some IngestionStatus.completed ∧
    ((process_chat directAnswerEnv completedFileDB ("question".toList) none
        (some ("f1".toList))).1.map
      (fun r => (r.retrieval_mode, r.retrieved_chunks)) =
      .ok (RetrievalMode.inline, none)) :=
  ⟨rfl, rfl⟩

/-- **C1 (amended)**: on a turn whose collected document set contains a
`completed` document (the RAG branch is taken), `process_chat` resolves
the turn to retrieval mode `rag` with a non-null (possibly empty)
retrieved-chunks list exactly when the backend requests tool calls and
the tool execution and follow-up completion succeed; when the backend
answers without requesting the `semantic_search` tool, no retrieval
pass is forced — the turn resolves to mode `inline` with a null
retrieved-chunks list. -/
theorem process_chat_rag_resolution (env : ChatEnv) (message : List Char) :
    (∀ (history : List OMsg) (file_ids : List (List Char))
        (rt : Option (List Char)),
      env.chat_completion_with_tools history = .ok (rt, []) →
      rag_turn env message history file_ids = .ok (rt.getD [], .inline, none)) ∧
    (∀ (history : List OMsg) (file_ids : List (List Char))
        (rt : Option (List Char)) (tcs : List ToolCall) (tms : List OMsg)
        (chunks : List RetrievedChunk) (final : List Char),
      tcs ≠ [] →
      env.chat_completion_with_tools history = .ok (rt, tcs) →
      run_tool_calls env message file_ids tcs = .ok (tms, chunks) →
      env.chat_completion (history ++
        [OMsg.assistantToolCalls (orNone rt) tcs] ++ tms) = .ok final →
      rag_turn env message history file_ids = .ok (final, .rag, some chunks)) ∧
    (∀ (db1 : DB) (cid : Nat) (file : Option FileRec) (resp : List Char)
        (mode : RetrievalMode) (chunks : Option (List RetrievedChunk)),
      (adjusted_file_ids (userCommitted db1 cid message file) cid file).2 = true →
      (adjusted_file_ids (userCommitted db1 cid message file) cid file).1 ≠ [] →
      rag_turn env message
        (build_message_history env (userCommitted db1 cid message file) cid)
        (adjusted_file_ids (userCommitted db1 cid message file) cid file).1 =
        .ok (resp, mode, chunks) →
      (process_chat_validated env db1 cid message file).1.map
        (fun r => (r.response, r.retrieval_mode, r.retrieved_chunks)) =
        .ok (resp, mode, chunks)) := by
  refine ⟨?_, ?_, ?_⟩
  · intro history file_ids rt h
    unfold rag_turn
    rw [h]
  · intro history file_ids rt tcs tms chunks final hne h1 h2 h3
    unfold rag_turn
    rw [h1]
    cases tcs with
    | nil => exact absurd rfl hne
    | cons a as =>
      simp only []
      rw [h2]
      simp only []
      rw [h3]
  · intro db1 cid file resp mode chunks hflag hne h
    have hto : turn_outcome env (userCommitted db1 cid message file) cid
        message file = .ok (resp, mode, chunks) := by
      unfold turn_outcome
      have hcond : ((adjusted_file_ids (userCommitted db1 cid message file)
          cid file).2 &&
          !(adjusted_file_ids (userCommitted db1 cid message file)
            cid file).1.isEmpty) = true := by
        rw [hflag]
        simpa [List.isEmpty_iff] using hne
      rw [if_pos hcond]
      exact h
    unfold process_chat_validated
    rw [hto]
    rfl

theorem process_chat_rag_resolution_witness :
    rag_turn directAnswerEnv ("question".toList) [] [("f1".toList)] =
      .ok ((some ("direct answer".toList)).getD [], .inline, none) :=
  (process_chat_rag_resolution directAnswerEnv ("question".toList)).1
    [] [("f1".toList)] (some ("direct answer".toList)) rfl

/-- **C2**: the code contradicts the claim (and the docstring and log
message of its own fallback builder): after a format-rejection failure
of the first inline completion, the rebuilt history still attempts
page-image rendering — here it contains a page-image message — so the
single retry resends images and fails with the same rejection, which
then propagates. -/
theorem text_extraction_rebuild_renders_images :
    (build_message_history_with_text_extraction mimeRejectingEnv
        uploadedFileTurnDB 1).any hasImages = true ∧
    (process_chat mimeRejectingEnv uploadedFileDB ("again".toList)
        (some 1) none).1 = .error mimeError :=
  ⟨rfl, rfl⟩

/-- **C3** fails on the code: the user message is committed on its own
(`chat_handler.py` line 324) before history construction and the
completion call, so when the completion fails the turn's user message is
already persisted (no assistant message is) — the stored history is not
unchanged on error. -/
theorem user_message_commit_counterexample :
    (process_chat failingCompletionEnv emptyDB ("hello".toList) none
        none).1 = .error (.otherError ("backend down".toList)) ∧
    (process_chat failingCompletionEnv emptyDB ("hello".toList) none
        none).2.messages = [mkUserMessage 1 ("hello".toList) none] :=
  ⟨rfl, rfl⟩

/-- **C3 (amended)**: the new user Message is committed in its own
transaction immediately after creation; only the assistant Message write
shares the turn's final commit.  Hence if any step after recording the
user message raises, the committed history is exactly the pre-turn
history plus the user message (the user message persists, no assistant
message of the turn does); on success both messages are persisted. -/
theorem turn_commit_boundaries (env : ChatEnv) (db1 : DB) (cid : Nat)
    (message : List Char) (file : Option FileRec) :
    (∀ e : PyErr,
      (process_chat_validated env db1 cid message file).1 = .error e →
      (process_chat_validated env db1 cid message file).2.messages =
        db1.messages ++ [mkUserMessage cid message file]) ∧
    (∀ r : ChatOutcome,
      (process_chat_validated env db1 cid message file).1 = .ok r →
      ∃ am : StoredMessage, am.role = .assistant ∧
        (process_chat_validated env db1 cid message file).2.messages =
          db1.messages ++ [mkUserMessage cid message file, am]) := by
  cases hout : turn_outcome env (userCommitted db1 cid message file) cid
      message file with
  | error e0 =>
    constructor
    · intro e he
      unfold process_chat_validated finish_turn
      rw [hout]
      rfl
    · intro r hr
      unfold process_chat_validated finish_turn at hr
      rw [hout] at hr
      exact absurd hr (by simp)
  | ok t =>
    obtain ⟨resp, mode, chunks⟩ := t
    constructor
    · intro e he
      unfold process_chat_validated finish_turn at he
      rw [hout] at he
      exact absurd he (by simp)
    · intro r hr
      refine ⟨mkAssistantMessage cid resp mode chunks, rfl, ?_⟩
      unfold process_chat_validated finish_turn
      rw [hout]
      simp [userCommitted]

theorem turn_commit_boundaries_witness :
    (process_chat_validated failingCompletionEnv emptyDB 1
        ("hello".toList) none).2.messages =
      emptyDB.messages ++ [mkUserMessage 1 ("hello".toList) none] :=
  (turn_commit_boundaries failingCompletionEnv emptyDB 1
    ("hello".toList) none).1 (.otherError ("backend down".toList)) rfl

/-- **C4** fails on the code: an assistant message produced in inline
mode still carries a populated `retrieval_mode` (the value `inline`,
`chat_handler.py` line 492), so the field is not reserved to RAG
assistant messages. -/
theorem inline_assistant_mode_counterexample :
    (process_chat okCompletionEnv emptyDB ("hi".toList) none
        none).2.messages.map (fun m => (m.role, m.retrieval_mode)) =
      [(MessageRole.user, none),
       (MessageRole.assistant, some RetrievalMode.inline)] :=
  rfl

theorem process_chat_validated_tail (env : ChatEnv) (db1 : DB) (cid : Nat)
    (message : List Char) (file : Option FileRec) :
    ∃ tail : List StoredMessage,
      (process_chat_validated env db1 cid message file).2.messages =
        db1.messages ++ tail ∧
      ∀ m ∈ tail, message_fields_ok m := by
  have user_ok : message_fields_ok (mkUserMessage cid message file) := by
    constructor
    · intro _
      exact ⟨rfl, rfl⟩
    · intro habs
      simp [mkUserMessage] at habs
  cases hout : turn_outcome env (userCommitted db1 cid message file) cid
      message file with
  | error e0 =>
    refine ⟨[mkUserMessage cid message file], ?_, ?_⟩
    · unfold process_chat_validated finish_turn
      rw [hout]
      rfl
    · intro m hm
      rw [List.mem_singleton] at hm
      subst hm
      exact user_ok
  | ok t =>
    obtain ⟨resp, mode, chunks⟩ := t
    refine ⟨[mkUserMessage cid message file,
      mkAssistantMessage cid resp mode chunks], ?_, ?_⟩
    · unfold process_chat_validated finish_turn
      rw [hout]
      simp [userCommitted]
    · intro m hm
      rcases List.mem_cons.mp hm with hm | hm
      · subst hm
        exact user_ok
      · rw [List.mem_singleton] at hm
        subst hm
        constructor
        · intro habs
          simp [mkAssistantMessage] at habs
        · intro _
          refine ⟨mode, rfl, ?_⟩
          rcases turn_outcome_mode_spec env _ cid message file resp mode
              chunks hout with ⟨hm', hc⟩ | ⟨hm', hc⟩
          · subst hm'
            exact iff_of_true hc rfl
          · subst hm'
            refine iff_of_false (by simpa using hc) (by decide)

/-- **C4 (amended)**: every message persisted by a chat turn (the only
writer of Message rows) satisfies: user messages never carry
`retrieval_mode` or `retrieved_chunks`; assistant messages always carry
a `retrieval_mode` (`inline` or `rag`) and carry a non-null
`retrieved_chunks` list exactly when that mode is `rag`. -/
theorem message_field_invariant (env : ChatEnv) (db0 : DB)
    (message : List Char) (cid? : Option Nat) (fid? : Option (List Char)) :
    (process_chat env db0 message cid? fid?).2.messages.take
        db0.messages.length = db0.messages ∧
    ∀ m ∈ (process_chat env db0 message cid? fid?).2.messages.drop
        db0.messages.length, message_fields_ok m := by
  have base : ∃ tail : List StoredMessage,
      (process_chat env db0 message cid? fid?).2.messages =
        db0.messages ++ tail ∧ ∀ m ∈ tail, message_fields_ok m := by
    unfold process_chat
    cases fid? with
    | none =>
      obtain ⟨tail, h1, h2⟩ := process_chat_validated_tail env
        (get_or_create_conversation db0 cid?).2
        (get_or_create_conversation db0 cid?).1 message none
      exact ⟨tail, by rw [h1, get_or_create_messages], h2⟩
    | some fid =>
      cases hf : findFile (get_or_create_conversation db0 cid?).2 fid with
      | none =>
        refine ⟨[], ?_, by intro m hm; exact absurd hm (List.not_mem_nil m)⟩
        simp only [hf]
        simp
      | some file =>
        obtain ⟨tail, h1, h2⟩ := process_chat_validated_tail env
          (get_or_create_conversation db0 cid?).2
          (get_or_create_conversation db0 cid?).1 message (some file)
        refine ⟨tail, ?_, h2⟩
        simp only [hf]
        rw [h1, get_or_create_messages]
  obtain ⟨tail, h1, h2⟩ := base
  constructor
  · rw [h1]
    exact List.take_left _ _
  · rw [h1, List.drop_left]
    exact h2

theorem message_field_invariant_witness :
    message_fields_ok
      (mkAssistantMessage 1 ("fine".toList) RetrievalMode.inline none) :=
  (message_field_invariant okCompletionEnv emptyDB ("hi".toList) none
    none).2 (mkAssistantMessage 1 ("fine".toList) RetrievalMode.inline none)
    (by decide)

end ChatPdf
